import Mathlib

/-!
Verification of the passio credential vault's cryptographic and
session-lifecycle core.

The definitions below are a shallow embedding of the Go sources:

* `internal/crypto` — AES-GCM authenticated encryption and PBKDF2 key
  derivation.  The AES block cipher itself lives in Go's standard
  library, so the embedding is parameterized by a 128-bit block
  encryption function `BC : List Nat → Nat → Nat` (key ↦ block ↦ block);
  the GCM mode of operation, SHA-256, HMAC-SHA256 and PBKDF2 are
  embedded concretely, following the algorithms the standard library
  implements (NIST SP 800-38D, FIPS 180-4, RFC 2104, RFC 2898).
* `internal/app` — the session lock state machine, password health
  checks, and the persisted master verification material.
* `internal/cmd` — the `init` command's persistence of the derived
  master key material.

Bytes are `Nat`s below 256, byte strings are `List Nat`, timestamps are
`Int` nanoseconds (Go's `time.Duration` unit), and the fresh random
values the Go code draws (salt, GCM nonce) appear as explicit
parameters.
-/

namespace Passio

/-- Big-endian serialization of `n` into exactly `k` bytes; only the
`k` lowest base-256 digits are kept. -/
def natToBeBytes : Nat → Nat → List Nat
  | 0, _ => []
  | k + 1, n => natToBeBytes k (n / 256) ++ [n % 256]

/-- Big-endian deserialization of a byte list into a natural number. -/
def beBytesToNat (bs : List Nat) : Nat :=
  bs.foldl (fun acc b => acc * 256 + b) 0

/-- Pointwise XOR of two byte lists, truncated to the shorter one —
the semantics of Go's `xorBytes` over equal-or-shorter destinations. -/
def xorBytes (a b : List Nat) : List Nat :=
  List.zipWith Nat.xor a b

/-- Splits a list into consecutive chunks of `k` elements (the final
chunk may be shorter); the first argument is recursion fuel. -/
def chunksAux (k : Nat) : Nat → List Nat → List (List Nat)
  | 0, _ => []
  | _ + 1, [] => []
  | fuel + 1, l => l.take k :: chunksAux k fuel (l.drop k)

/-- Splits a list into consecutive chunks of `k` elements. -/
def chunks (k : Nat) (l : List Nat) : List (List Nat) :=
  chunksAux k l.length l

/-- UTF-8 encoding of a single character, as Go produces when
converting a `string` to `[]byte`. -/
def charUtf8Bytes (c : Char) : List Nat :=
  let n := c.toNat
  if n < 128 then [n]
  else if n < 2048 then
    [192 ||| (n >>> 6), 128 ||| (n &&& 63)]
  else if n < 65536 then
    [224 ||| (n >>> 12), 128 ||| ((n >>> 6) &&& 63), 128 ||| (n &&& 63)]
  else
    [240 ||| (n >>> 18), 128 ||| ((n >>> 12) &&& 63),
      128 ||| ((n >>> 6) &&& 63), 128 ||| (n &&& 63)]

/-- The UTF-8 bytes of a string — Go's `[]byte(s)`. -/
def strToBytes (s : String) : List Nat :=
  (s.toList.map charUtf8Bytes).flatten

/-! ### GCM mode of operation (Go `crypto/cipher`, NIST SP 800-38D)

`crypto/cipher.NewGCM` wraps the AES block returned by
`aes.NewCipher`.  The block cipher is a parameter `E : Nat → Nat` on
128-bit blocks encoded big-endian as `Nat`. -/

/-- Increment of the low 32 bits of a 128-bit counter block
(`gcmInc32`). -/
def inc32 (x : Nat) : Nat :=
  (x / 4294967296) * 4294967296 + (x + 1) % 4294967296

/-- `k` consecutive CTR keystream blocks starting at counter value
`counter`, 16 bytes each (`gcm.counterCrypt`'s keystream). -/
def ksBlocks (E : Nat → Nat) (counter : Nat) : Nat → List Nat
  | 0 => []
  | k + 1 => natToBeBytes 16 (E counter) ++ ksBlocks E (inc32 counter) k

/-- The first `n` bytes of the CTR keystream starting at `counter`. -/
def keystream (E : Nat → Nat) (counter n : Nat) : List Nat :=
  (ksBlocks E counter ((n + 15) / 16)).take n

/-- CTR encryption/decryption: XOR the data with the keystream
(`gcm.counterCrypt`). -/
def ctrCrypt (E : Nat → Nat) (counter : Nat) (data : List Nat) : List Nat :=
  xorBytes data (keystream E counter data.length)

/-- Multiplication in GF(2^128) with the GCM bit convention: bit `i`
of a block (most-significant first) is the coefficient of `x^i`, and
reduction uses `R = 0xe1 · 2^120` (NIST SP 800-38D, algorithm 1). -/
def gfMul (x y : Nat) : Nat :=
  ((List.range 128).foldl
    (fun (zv : Nat × Nat) i =>
      let z := if (y >>> (127 - i)) &&& 1 = 1 then zv.1 ^^^ zv.2 else zv.1
      let v := if zv.2 &&& 1 = 1 then (zv.2 >>> 1) ^^^ (225 <<< 120) else zv.2 >>> 1
      (z, v))
    ((0 : Nat), x)).1

/-- A byte string as 128-bit blocks, the last one zero-padded on the
right (GHASH input formatting). -/
def bytesToBlocks (bs : List Nat) : List Nat :=
  (chunks 16 bs).map (fun c => beBytesToNat (c ++ List.replicate (16 - c.length) 0))

/-- GHASH: absorb each block by XOR followed by multiplication with
the hash key `h` (`gcm.update`). -/
def ghash (h : Nat) (blocks : List Nat) : Nat :=
  blocks.foldl (fun y b => gfMul (y ^^^ b) h) 0

/-- The pre-counter block for a 12-byte nonce: `nonce ‖ 0x00000001`
(`gcm.deriveCounter`). -/
def gcmJ0 (nonce : List Nat) : Nat :=
  beBytesToNat nonce * 4294967296 + 1

/-- The 16-byte GCM authentication tag over ciphertext `ct` with empty
additional data (`gcm.auth`): GHASH under `H = E(0)` of the ciphertext
blocks and the length block, masked with `E(J0)`. -/
def gcmTag (E : Nat → Nat) (nonce ct : List Nat) : List Nat :=
  natToBeBytes 16
    (E (gcmJ0 nonce) ^^^
      ghash (E 0) (bytesToBlocks ct ++ [(8 * ct.length) % 18446744073709551616]))

/-- `gcm.Seal` with the nonce not prepended: CTR-encrypt the plaintext
starting at `inc32(J0)` and append the tag. -/
def gcmSeal (E : Nat → Nat) (nonce pt : List Nat) : List Nat :=
  ctrCrypt E (inc32 (gcmJ0 nonce)) pt ++
    gcmTag E nonce (ctrCrypt E (inc32 (gcmJ0 nonce)) pt)

/-- Failures of the `internal/crypto` layer: `aes.KeySizeError` from
`aes.NewCipher`, and `cipher`'s "message authentication failed" from
`gcm.Open`. -/
inductive CryptoError where
  | keySize (n : Nat)
  | authFailed
deriving DecidableEq

/-- `gcm.Open`: reject inputs shorter than the tag, recompute the tag
over the ciphertext part and compare (Go compares in constant time,
which is extensionally equality), then CTR-decrypt. -/
def gcmOpen (E : Nat → Nat) (nonce data : List Nat) : Except CryptoError (List Nat) :=
  if data.length < 16 then Except.error CryptoError.authFailed
  else if data.drop (data.length - 16) = gcmTag E nonce (data.take (data.length - 16)) then
    Except.ok (ctrCrypt E (inc32 (gcmJ0 nonce)) (data.take (data.length - 16)))
  else Except.error CryptoError.authFailed

/-- `AESEncryption.Encrypt` (`internal/crypto`): `aes.NewCipher`
accepts key lengths 16, 24 and 32 only; a fresh 12-byte random nonce
(explicit parameter here) is prepended to `gcm.Seal`'s output. -/
def AESEncrypt (BC : List Nat → Nat → Nat) (data key nonce : List Nat) :
    Except CryptoError (List Nat) :=
  if key.length = 16 ∨ key.length = 24 ∨ key.length = 32 then
    Except.ok (nonce ++ gcmSeal (BC key) nonce data)
  else Except.error (CryptoError.keySize key.length)

/-- `AESEncryption.Decrypt` (`internal/crypto`): key-length check,
then — faithfully to the source — a blob shorter than the 12-byte
nonce returns `nil, err` where `err` is the `nil` error left over from
`cipher.NewGCM`, i.e. a success carrying an empty plaintext; otherwise
the leading 12 bytes are split off as the nonce and `gcm.Open` runs on
the rest. -/
def AESDecrypt (BC : List Nat → Nat → Nat) (data key : List Nat) :
    Except CryptoError (List Nat) :=
  if key.length = 16 ∨ key.length = 24 ∨ key.length = 32 then
    if data.length < 12 then
      Except.ok []
    else
      gcmOpen (BC key) (data.take 12) (data.drop 12)
  else Except.error (CryptoError.keySize key.length)

/-! ### SHA-256, HMAC-SHA256 and PBKDF2 (Go `crypto/sha256`,
`crypto/hmac`, `golang.org/x/crypto/pbkdf2`)

32-bit words are `Nat`s kept below `2^32` by explicit reduction. -/

/-- Reduction to a 32-bit word. -/
def w32 (n : Nat) : Nat := n % 4294967296

/-- Right rotation of a 32-bit word by `k` bits. -/
def rotr32 (k n : Nat) : Nat := w32 ((n >>> k) ||| (n <<< (32 - k)))

/-- The SHA-256 choice function `Ch(x,y,z)`; Go's `^x` on a 32-bit
word is XOR with the all-ones mask. -/
def shaCh (x y z : Nat) : Nat := (x &&& y) ^^^ ((x ^^^ 4294967295) &&& z)

/-- The SHA-256 majority function `Maj(x,y,z)`. -/
def shaMaj (x y z : Nat) : Nat := (x &&& y) ^^^ (x &&& z) ^^^ (y &&& z)

/-- SHA-256 `Σ0`. -/
def shaBigSigma0 (x : Nat) : Nat := rotr32 2 x ^^^ rotr32 13 x ^^^ rotr32 22 x

/-- SHA-256 `Σ1`. -/
def shaBigSigma1 (x : Nat) : Nat := rotr32 6 x ^^^ rotr32 11 x ^^^ rotr32 25 x

/-- SHA-256 `σ0`. -/
def shaSmallSigma0 (x : Nat) : Nat := rotr32 7 x ^^^ rotr32 18 x ^^^ (x >>> 3)

/-- SHA-256 `σ1`. -/
def shaSmallSigma1 (x : Nat) : Nat := rotr32 17 x ^^^ rotr32 19 x ^^^ (x >>> 10)

/-- The 64 SHA-256 round constants `K` (FIPS 180-4, section 4.2.2),
written in decimal. -/
def shaK : List Nat :=
  [1116352408, 1899447441, 3049323471, 3921009573, 961987163, 1508970993,
   2453635748, 2870763221, 3624381080, 310598401, 607225278, 1426881987,
   1925078388, 2162078206, 2614888103, 3248222580, 3835390401, 4022224774,
   264347078, 604807628, 770255983, 1249150122, 1555081692, 1996064986,
   2554220882, 2821834349, 2952996808, 3210313671, 3336571891, 3584528711,
   113926993, 338241895, 666307205, 773529912, 1294757372, 1396182291,
   1695183700, 1986661051, 2177026350, 2456956037, 2730485921, 2820302411,
   3259730800, 3345764771, 3516065817, 3600352804, 4094571909, 275423344,
   430227734, 506948616, 659060556, 883997877, 958139571, 1322822218,
   1537002063, 1747873779, 1955562222, 2024104815, 2227730452, 2361852424,
   2428436474, 2756734187, 3204031479, 3329325298]

/-- The eight SHA-256 working variables. -/
structure Sha256State where
  a : Nat
  b : Nat
  c : Nat
  d : Nat
  e : Nat
  f : Nat
  g : Nat
  h : Nat

/-- The SHA-256 initial hash value (FIPS 180-4, section 5.3.3),
written in decimal. -/
def sha256InitState : Sha256State :=
  ⟨1779033703, 3144134277, 1013904242, 2773480762,
   1359893119, 2600822924, 528734635, 1541459225⟩

/-- Extend a 16-word message block to the 64-word schedule `W`. -/
def sha256Schedule (block : List Nat) : List Nat :=
  (List.range 48).foldl
    (fun ws _ =>
      let k := ws.length
      ws ++ [w32 (shaSmallSigma1 (ws.getD (k - 2) 0) + ws.getD (k - 7) 0 +
        shaSmallSigma0 (ws.getD (k - 15) 0) + ws.getD (k - 16) 0)])
    block

/-- One round of the SHA-256 compression loop, consuming a pair of a
round constant and a schedule word. -/
def sha256Round (st : Sha256State) (kw : Nat × Nat) : Sha256State :=
  let t1 := w32 (st.h + shaBigSigma1 st.e + shaCh st.e st.f st.g + kw.1 + kw.2)
  let t2 := w32 (shaBigSigma0 st.a + shaMaj st.a st.b st.c)
  ⟨w32 (t1 + t2), st.a, st.b, st.c, w32 (st.d + t1), st.e, st.f, st.g⟩

/-- SHA-256 compression of one 16-word block into the running hash. -/
def sha256Compress (hs : Sha256State) (block : List Nat) : Sha256State :=
  let st := (shaK.zip (sha256Schedule block)).foldl sha256Round hs
  ⟨w32 (hs.a + st.a), w32 (hs.b + st.b), w32 (hs.c + st.c), w32 (hs.d + st.d),
   w32 (hs.e + st.e), w32 (hs.f + st.f), w32 (hs.g + st.g), w32 (hs.h + st.h)⟩

/-- SHA-256 message padding: a `0x80` byte, zeros up to 56 mod 64, and
the bit length as eight big-endian bytes. -/
def sha256Pad (msg : List Nat) : List Nat :=
  msg ++ [128] ++ List.replicate ((119 - msg.length % 64) % 64) 0 ++
    natToBeBytes 8 (8 * msg.length)

/-- The 32-byte big-endian digest of a hash state. -/
def sha256Digest (st : Sha256State) : List Nat :=
  natToBeBytes 4 st.a ++ natToBeBytes 4 st.b ++ natToBeBytes 4 st.c ++
    natToBeBytes 4 st.d ++ natToBeBytes 4 st.e ++ natToBeBytes 4 st.f ++
    natToBeBytes 4 st.g ++ natToBeBytes 4 st.h

/-- SHA-256 of a byte string (FIPS 180-4; Go `crypto/sha256`). -/
def sha256 (msg : List Nat) : List Nat :=
  sha256Digest
    ((chunks 64 (sha256Pad msg)).foldl
      (fun s b => sha256Compress s ((chunks 4 b).map beBytesToNat))
      sha256InitState)

/-- HMAC-SHA256 (RFC 2104; Go `crypto/hmac` with `sha256.New`): hash
keys longer than the 64-byte block, zero-pad to 64 bytes, and apply
the two-pass inner/outer construction with pads `0x36`/`0x5c`. -/
def hmacSha256 (key msg : List Nat) : List Nat :=
  let k1 := if 64 < key.length then sha256 key else key
  let k0 := k1 ++ List.replicate (64 - k1.length) 0
  sha256 ((k0.map (fun b => b ^^^ 92)) ++ sha256 ((k0.map (fun b => b ^^^ 54)) ++ msg))

/-- The `U`/`T` accumulation loop of one PBKDF2 block: `k` further
applications of the PRF, XOR-folded into the accumulator
(`x/crypto/pbkdf2`'s inner `for n := 2; n <= iter` loop). -/
def pbkdf2Loop (password u t : List Nat) : Nat → List Nat
  | 0 => t
  | k + 1 =>
    let u2 := hmacSha256 password u
    pbkdf2Loop password u2 (xorBytes t u2) k

/-- One PBKDF2 output block `T_blockIdx` (RFC 2898, `x/crypto/pbkdf2`):
`U1 = PRF(password, salt ‖ INT(blockIdx))` then `iter - 1` further PRF
applications XOR-folded together. -/
def pbkdf2Block (password salt : List Nat) (iter blockIdx : Nat) : List Nat :=
  let u1 := hmacSha256 password (salt ++ natToBeBytes 4 blockIdx)
  pbkdf2Loop password u1 u1 (iter - 1)

/-- PBKDF2-HMAC-SHA256 (`x/crypto/pbkdf2.Key`): concatenate
`⌈keyLen / 32⌉` blocks and keep the first `keyLen` bytes. -/
def pbkdf2 (password salt : List Nat) (iter keyLen : Nat) : List Nat :=
  (((List.range ((keyLen + 31) / 32)).map
    (fun i => pbkdf2Block password salt iter (i + 1))).flatten).take keyLen

/-- The PBKDF2 iteration count hard-coded in
`AESEncryption.DeriveKey`. -/
def deriveKeyIterations : Nat := 4096

/-- `AESEncryption.DeriveKey` (`internal/crypto`):
`pbkdf2.Key([]byte(password), salt, 4096, 32, sha256.New)`. -/
def DeriveKey (password : String) (salt : List Nat) : List Nat :=
  pbkdf2 (strToBytes password) salt deriveKeyIterations 32

/-! ### The application and session layer (`internal/app`)

`App` holds an implementation of the `crypto.Encryption` interface; the
session state and the persisted configuration fields the claims touch
are collected in `AppState`.  Go's `time.Time`/`time.Duration` values
are `Int` nanosecond timestamps. -/

/-- The `crypto.Encryption` interface of `internal/crypto`. -/
structure Encryption where
  encrypt : List Nat → List Nat → Except CryptoError (List Nat)
  decrypt : List Nat → List Nat → Except CryptoError (List Nat)
  deriveKey : String → List Nat → List Nat

/-- The concrete `AESEncryption` implementation, parameterized by the
standard library's AES block cipher family `BC` and by the fresh
random nonce `Encrypt` draws. -/
def aesEncryption (BC : List Nat → Nat → Nat) (nonce : List Nat) : Encryption :=
  { encrypt := fun data key => AESEncrypt BC data key nonce
    decrypt := fun data key => AESDecrypt BC data key
    deriveKey := DeriveKey }

/-- The `App` fields the session claims touch: the persisted
verification material (`Config.MasterHash`, `Config.Salt`), the
`Config.AutoLockTimeout` setting (seconds), and the mutable session
state (`isLocked`, `lastActivity`). -/
structure AppState where
  masterHash : List Nat
  salt : List Nat
  autoLockTimeout : Int
  isLocked : Bool
  lastActivity : Int
deriving DecidableEq

/-- Failures surfaced by `internal/app`: the two locked-state errors
(with their exact messages), the wrong-master-password error, and
wrapped crypto failures. -/
inductive AppError where
  | locked (msg : String)
  | invalidCredentials
  | cryptoFail (e : CryptoError)
deriving DecidableEq

/-- `Config.ValidateMasterPassword`: re-derive from the supplied
password and the stored salt and compare byte strings. -/
def ValidateMasterPassword (E : Encryption) (st : AppState) (password : String) : Bool :=
  decide (E.deriveKey password st.salt = st.masterHash)

/-- `App.Lock`: set `isLocked`. -/
def Lock (st : AppState) : AppState :=
  { st with isLocked := true }

/-- `App.Unlock`: on successful validation clear `isLocked` and stamp
`lastActivity`; otherwise return the error and leave the receiver
untouched. -/
def Unlock (E : Encryption) (st : AppState) (password : String) (now : Int) :
    AppState × Option AppError :=
  if ValidateMasterPassword E st password then
    ({ st with isLocked := false, lastActivity := now }, none)
  else
    (st, some AppError.invalidCredentials)

/-- `App.UpdateActivity`: stamp `lastActivity`. -/
def UpdateActivity (st : AppState) (now : Int) : AppState :=
  { st with lastActivity := now }

/-- `App.CheckAutoLock`: when unlocked and the timeout is positive,
lock once the inactive time reaches the timeout.  Go compares
`time.Since(lastActivity).Seconds() >= float64(AutoLockTimeout)`;
with nanosecond timestamps this is the exact rational comparison
`now - lastActivity ≥ AutoLockTimeout · 10^9`, which is how it is
embedded here. -/
def CheckAutoLock (st : AppState) (now : Int) : AppState :=
  if st.isLocked = false ∧ 0 < st.autoLockTimeout then
    if st.autoLockTimeout * 1000000000 ≤ now - st.lastActivity then
      { st with isLocked := true }
    else st
  else st

/-- `App.EncryptPassword`: refuse while locked, otherwise encrypt the
UTF-8 bytes of the password under `Config.MasterHash` as the key. -/
def EncryptPassword (E : Encryption) (st : AppState) (password : String) :
    Except AppError (List Nat) :=
  if st.isLocked then Except.error (AppError.locked "password manager is locked")
  else
    match E.encrypt (strToBytes password) st.masterHash with
    | Except.ok c => Except.ok c
    | Except.error e => Except.error (AppError.cryptoFail e)

/-- `App.DecryptMasterPassword`: refuse while locked, otherwise
decrypt under `Config.MasterHash` as the key.  Go converts the
resulting bytes to a `string`; the byte sequence is returned here
unchanged. -/
def DecryptMasterPassword (E : Encryption) (st : AppState) (data : List Nat) :
    Except AppError (List Nat) :=
  if st.isLocked then Except.error (AppError.locked "passio is locked")
  else
    match E.decrypt data st.masterHash with
    | Except.ok p => Except.ok p
    | Except.error e => Except.error (AppError.cryptoFail e)

/-- What `Config.SetMasterKey` persists to `config.json`. -/
structure PersistedConfig where
  masterHash : List Nat
  salt : List Nat
deriving DecidableEq

/-- The `init` command (`newInitCmd` + `Config.SetMasterKey`): derive
the master key from the chosen passphrase and the freshly generated
salt, and persist that value as `MasterHash` together with the salt. -/
def initMasterConfig (E : Encryption) (masterPass : String) (salt : List Nat) :
    PersistedConfig :=
  { masterHash := E.deriveKey masterPass salt, salt := salt }

/-! ### Password health (`App.CheckPasswordHealth`) -/

/-- The six named boolean checks `App.CheckPasswordHealth` reports. -/
structure HealthReport where
  length : Bool
  uppercase : Bool
  lowercase : Bool
  numbers : Bool
  specialChars : Bool
  notCommon : Bool
deriving DecidableEq

/-- `containsUppercase`: any rune in `A..Z`. -/
def containsUppercase (s : String) : Bool :=
  s.toList.any (fun c => decide (65 ≤ c.toNat ∧ c.toNat ≤ 90))

/-- `containsLowercase`: any rune in `a..z`. -/
def containsLowercase (s : String) : Bool :=
  s.toList.any (fun c => decide (97 ≤ c.toNat ∧ c.toNat ≤ 122))

/-- `containsNumbers`: any rune in `0..9`. -/
def containsNumbers (s : String) : Bool :=
  s.toList.any (fun c => decide (48 ≤ c.toNat ∧ c.toNat ≤ 57))

/-- The fixed special-character set of `containsSpecialChars`. -/
def specialCharSet : String := "!@#$%^&*()_+-=[]\x7b\x7d|;:,.<>?"

/-- `containsSpecialChars`: any rune drawn from the fixed set. -/
def containsSpecialChars (s : String) : Bool :=
  s.toList.any (fun c => specialCharSet.toList.any (fun sc => c == sc))

/-- `isCommonPassword`: membership in the hard-coded denylist. -/
def isCommonPassword (p : String) : Bool :=
  p == "password" || p == "123456" || p == "qwerty"

/-- `App.CheckPasswordHealth`: the length check compares Go's
`len(password)` — the UTF-8 byte length — against
`Config.PasswordLength`. -/
def CheckPasswordHealth (passwordLength : Int) (password : String) : HealthReport :=
  { length := decide (passwordLength ≤ (strToBytes password).length)
    uppercase := containsUppercase password
    lowercase := containsLowercase password
    numbers := containsNumbers password
    specialChars := containsSpecialChars password
    notCommon := !isCommonPassword password }

/-- `Config.PasswordLength`'s default value from `loadConfig`. -/
def defaultPasswordLength : Int := 16

/-! ### Session operation sequences

The three operations of the lock state machine the temporal claim
quantifies over, replayed by a fold. -/

/-- A call to one of `App.Lock`, `App.Unlock`, `App.CheckAutoLock`. -/
inductive SessionOp where
  | lockOp
  | unlockOp (password : String) (now : Int)
  | checkOp (now : Int)
deriving DecidableEq

/-- Apply one session operation to the state (errors discarded: a
failed `Unlock` leaves the receiver untouched). -/
def applyOp (E : Encryption) (st : AppState) : SessionOp → AppState
  | SessionOp.lockOp => Lock st
  | SessionOp.unlockOp p t => (Unlock E st p t).1
  | SessionOp.checkOp t => CheckAutoLock st t

/-- Replay a sequence of session operations. -/
def runOps (E : Encryption) (st : AppState) (ops : List SessionOp) : AppState :=
  ops.foldl (applyOp E) st

/-! ### Concrete instances used by witnesses

The session-layer theorems quantify over any implementation of the
`crypto.Encryption` interface (as the Go code does); witnesses
instantiate it with a small computable one so the state machine can be
evaluated inside the kernel. -/

/-- The identity block cipher family, a cheap stand-in for AES when a
theorem holds for every block cipher. -/
def idBlockCipher : List Nat → Nat → Nat := fun _ b => b

/-- A small concrete `Encryption` implementation for witnesses. -/
def encWitness : Encryption :=
  { encrypt := fun data key => Except.ok (key ++ data)
    decrypt := fun data _ => Except.ok data
    deriveKey := fun password salt => salt ++ strToBytes password }

/-- A locked session whose master hash is `encWitness.deriveKey "pw" []`. -/
def lockedState : AppState :=
  { masterHash := strToBytes "pw", salt := [], autoLockTimeout := 300,
    isLocked := true, lastActivity := 0 }

/-- An unlocked session with a 5-second auto-lock timeout and last
activity at time 0. -/
def idleState : AppState :=
  { masterHash := strToBytes "pw", salt := [], autoLockTimeout := 5,
    isLocked := false, lastActivity := 0 }

/-! ### Supporting lemmas -/

theorem natToBeBytes_length (k n : Nat) : (natToBeBytes k n).length = k := by
  induction k generalizing n with
  | zero => rfl
  | succ k ih => simp [natToBeBytes, ih]

theorem ksBlocks_length (E : Nat → Nat) (counter k : Nat) :
    (ksBlocks E counter k).length = 16 * k := by
  induction k generalizing counter with
  | zero => rfl
  | succ k ih => simp [ksBlocks, natToBeBytes_length, ih]; ring

theorem keystream_length (E : Nat → Nat) (counter n : Nat) :
    (keystream E counter n).length = n := by
  simp only [keystream, List.length_take, ksBlocks_length]
  omega

theorem zipWith_xor_cancel :
    ∀ (p ks : List Nat), p.length ≤ ks.length →
      List.zipWith Nat.xor (List.zipWith Nat.xor p ks) ks = p := by
  intro p
  induction p with
  | nil => intro ks _; simp
  | cons a p ih =>
    intro ks h
    cases ks with
    | nil => simp at h
    | cons b ks =>
      simp only [List.zipWith]
      rw [ih ks (by simpa using h)]
      rw [show Nat.xor (Nat.xor a b) b = a from Nat.xor_cancel_right b a]

theorem ctrCrypt_length (E : Nat → Nat) (c : Nat) (data : List Nat) :
    (ctrCrypt E c data).length = data.length := by
  simp [ctrCrypt, xorBytes, keystream_length]

theorem ctrCrypt_ctrCrypt (E : Nat → Nat) (c : Nat) (p : List Nat) :
    ctrCrypt E c (ctrCrypt E c p) = p := by
  unfold ctrCrypt xorBytes
  rw [show (List.zipWith Nat.xor p (keystream E c p.length)).length = p.length by
    simp [keystream_length]]
  exact zipWith_xor_cancel p (keystream E c p.length) (by simp [keystream_length])

theorem gcmTag_length (E : Nat → Nat) (nonce ct : List Nat) :
    (gcmTag E nonce ct).length = 16 := by
  simp [gcmTag, natToBeBytes_length]

theorem gcmOpen_append_tag (E : Nat → Nat) (nonce ct : List Nat) :
    gcmOpen E nonce (ct ++ gcmTag E nonce ct) =
      Except.ok (ctrCrypt E (inc32 (gcmJ0 nonce)) ct) := by
  have htag : (gcmTag E nonce ct).length = 16 := gcmTag_length E nonce ct
  have hlen : (ct ++ gcmTag E nonce ct).length = ct.length + 16 := by
    simp [htag]
  have hsub : (ct ++ gcmTag E nonce ct).length - 16 = ct.length := by omega
  have htake : (ct ++ gcmTag E nonce ct).take ((ct ++ gcmTag E nonce ct).length - 16) = ct := by
    rw [hsub]; exact List.take_left' rfl
  have hdrop : (ct ++ gcmTag E nonce ct).drop ((ct ++ gcmTag E nonce ct).length - 16) =
      gcmTag E nonce ct := by
    rw [hsub]; exact List.drop_left' rfl
  unfold gcmOpen
  rw [if_neg (by omega), htake, hdrop, if_pos rfl]

theorem gcmOpen_gcmSeal (E : Nat → Nat) (nonce pt : List Nat) :
    gcmOpen E nonce (gcmSeal E nonce pt) = Except.ok pt := by
  unfold gcmSeal
  rw [gcmOpen_append_tag, ctrCrypt_ctrCrypt]

theorem gcmSeal_length (E : Nat → Nat) (nonce pt : List Nat) :
    (gcmSeal E nonce pt).length = pt.length + 16 := by
  simp [gcmSeal, gcmTag_length, ctrCrypt_length]

theorem sha256Digest_length (st : Sha256State) : (sha256Digest st).length = 32 := by
  simp [sha256Digest, natToBeBytes_length]

theorem sha256_length (msg : List Nat) : (sha256 msg).length = 32 := by
  unfold sha256
  exact sha256Digest_length _

theorem hmacSha256_length (key msg : List Nat) : (hmacSha256 key msg).length = 32 := by
  unfold hmacSha256
  exact sha256_length _

theorem pbkdf2Loop_length (pw : List Nat) :
    ∀ (k : Nat) (u t : List Nat), t.length = 32 → (pbkdf2Loop pw u t k).length = 32 := by
  intro k
  induction k with
  | zero => intro u t h; simpa [pbkdf2Loop] using h
  | succ k ih =>
    intro u t h
    simp only [pbkdf2Loop]
    exact ih _ _ (by simp [xorBytes, h, hmacSha256_length])

theorem pbkdf2Block_length (pw salt : List Nat) (iter idx : Nat) :
    (pbkdf2Block pw salt iter idx).length = 32 := by
  simp only [pbkdf2Block]
  exact pbkdf2Loop_length pw _ _ _ (hmacSha256_length _ _)

/-! ### Claim theorems -/

/-- C2 (code_bug evidence): on the failing input — a valid 32-byte key
and an empty blob, which is shorter than the 12-byte nonce — `Decrypt`
returns success with an empty plaintext instead of any failure: the
source's short-blob branch executes `return nil, err` at a point where
`err` is the `nil` error left from `cipher.NewGCM`. -/
theorem decrypt_short_blob_succeeds :
    AESDecrypt idBlockCipher [] (List.replicate 32 0) = Except.ok [] := by
  rfl

/-- C3: for every block cipher family, every plaintext, every 32-byte
key and every 12-byte nonce, `Decrypt` inverts `Encrypt` exactly. -/
theorem encrypt_decrypt_roundtrip (BC : List Nat → Nat → Nat) (P key nonce : List Nat)
    (hkey : key.length = 32) (hnonce : nonce.length = 12) :
    ∃ blob, AESEncrypt BC P key nonce = Except.ok blob ∧
      AESDecrypt BC blob key = Except.ok P := by
  refine ⟨nonce ++ gcmSeal (BC key) nonce P, ?_, ?_⟩
  · unfold AESEncrypt
    rw [if_pos (Or.inr (Or.inr hkey))]
  · unfold AESDecrypt
    rw [if_pos (Or.inr (Or.inr hkey))]
    have hlen : (nonce ++ gcmSeal (BC key) nonce P).length = 12 + (P.length + 16) := by
      simp [gcmSeal_length, hnonce]
    rw [if_neg (by omega)]
    rw [List.take_left' hnonce, List.drop_left' hnonce]
    exact gcmOpen_gcmSeal (BC key) nonce P

/-- C3 witness: the round trip evaluated at a concrete block cipher,
key, nonce and plaintext. -/
theorem encrypt_decrypt_roundtrip_witness :
    ∃ blob,
      AESEncrypt idBlockCipher [104, 117, 110, 116, 101, 114, 50]
        (List.replicate 32 7) (List.replicate 12 3) = Except.ok blob ∧
      AESDecrypt idBlockCipher blob (List.replicate 32 7) =
        Except.ok [104, 117, 110, 116, 101, 114, 50] :=
  encrypt_decrypt_roundtrip idBlockCipher [104, 117, 110, 116, 101, 114, 50]
    (List.replicate 32 7) (List.replicate 12 3) (by decide) (by decide)

/-- C7: `DeriveKey` always produces exactly 32 bytes, is by definition
PBKDF2-HMAC-SHA256 applied to the passphrase bytes and the salt, and
its iteration count is at least 4096.  Determinism is inherent: the
embedded function (like the Go source, which draws no randomness in
`DeriveKey`) is a pure function of the passphrase and salt. -/
theorem deriveKey_spec (password : String) (salt : List Nat) :
    (DeriveKey password salt).length = 32 ∧
    DeriveKey password salt = pbkdf2 (strToBytes password) salt deriveKeyIterations 32 ∧
    4096 ≤ deriveKeyIterations := by
  refine ⟨?_, rfl, by norm_num [deriveKeyIterations]⟩
  simp [DeriveKey, pbkdf2, List.range_succ, pbkdf2Block_length]

/-- C4: `Unlock` succeeds exactly when the key re-derived from the
supplied passphrase and the stored salt equals the stored `MasterHash`;
on mismatch it reports the invalid-credentials error and returns the
state entirely unchanged — in particular `isLocked`, `salt` and
`masterHash` are untouched. -/
theorem unlock_validates_master_password (E : Encryption) (st : AppState)
    (password : String) (now : Int) :
    ((Unlock E st password now).2 = none ↔
      E.deriveKey password st.salt = st.masterHash) ∧
    (E.deriveKey password st.salt ≠ st.masterHash →
      (Unlock E st password now).2 = some AppError.invalidCredentials ∧
      (Unlock E st password now).1 = st) := by
  by_cases h : E.deriveKey password st.salt = st.masterHash
  · constructor
    · simp [Unlock, ValidateMasterPassword, h]
    · intro hne; exact absurd h hne
  · constructor
    · simp [Unlock, ValidateMasterPassword, h]
    · intro _; simp [Unlock, ValidateMasterPassword, h]

/-- C4 witness: a wrong passphrase against a concrete state fails with
invalid credentials and leaves the state unchanged. -/
theorem unlock_validates_master_password_witness :
    (Unlock encWitness lockedState "wrong" 5).2 = some AppError.invalidCredentials ∧
    (Unlock encWitness lockedState "wrong" 5).1 = lockedState :=
  (unlock_validates_master_password encWitness lockedState "wrong" 5).2 (by decide)

/-- C5: while the session is locked, both operations that would need
the master key fail with their locked errors and produce no
ciphertext or plaintext. -/
theorem locked_blocks_key_operations (E : Encryption) (st : AppState)
    (password : String) (data : List Nat) (h : st.isLocked = true) :
    EncryptPassword E st password =
      Except.error (AppError.locked "password manager is locked") ∧
    DecryptMasterPassword E st data =
      Except.error (AppError.locked "passio is locked") := by
  constructor <;> simp [EncryptPassword, DecryptMasterPassword, h]

/-- C5 witness: the locked errors evaluated on a concrete locked
state. -/
theorem locked_blocks_key_operations_witness :
    EncryptPassword encWitness lockedState "s" =
      Except.error (AppError.locked "password manager is locked") ∧
    DecryptMasterPassword encWitness lockedState [1, 2] =
      Except.error (AppError.locked "passio is locked") :=
  locked_blocks_key_operations encWitness lockedState "s" [1, 2] rfl

/-- C8: `CheckAutoLock` leaves a locked session untouched, and locks an
unlocked session exactly when the timeout is positive and the time
since the last activity is at least the timeout (in particular a zero
timeout disables auto-lock, and an elapsed time strictly below the
timeout leaves the session unlocked). -/
theorem checkAutoLock_locks_iff (st : AppState) (now : Int) :
    (st.isLocked = true → CheckAutoLock st now = st) ∧
    (st.isLocked = false →
      ((CheckAutoLock st now).isLocked = true ↔
        0 < st.autoLockTimeout ∧
          st.autoLockTimeout * 1000000000 ≤ now - st.lastActivity)) := by
  constructor
  · intro h
    simp [CheckAutoLock, h]
  · intro h
    by_cases h1 : 0 < st.autoLockTimeout
    · by_cases h2 : st.autoLockTimeout * 1000000000 ≤ now - st.lastActivity
      · simp [CheckAutoLock, h, h1, h2]
      · simp [CheckAutoLock, h, h1, h2]
    · simp [CheckAutoLock, h, h1]

/-- C8 witness: with a 5-second timeout and last activity at 0,
checking at 6 seconds (in nanoseconds) locks the session. -/
theorem checkAutoLock_locks_iff_witness :
    (CheckAutoLock idleState 6000000000).isLocked = true :=
  ((checkAutoLock_locks_iff idleState 6000000000).2 rfl).mpr (by decide)

/-- C10 helper: no session operation changes the persisted
verification material. -/
theorem applyOp_preserves_material (E : Encryption) (st : AppState) (op : SessionOp) :
    (applyOp E st op).masterHash = st.masterHash ∧ (applyOp E st op).salt = st.salt := by
  cases op with
  | lockOp => simp [applyOp, Lock]
  | unlockOp p t =>
    simp only [applyOp, Unlock]
    split <;> simp
  | checkOp t =>
    simp only [applyOp, CheckAutoLock]
    split
    · split <;> simp
    · simp

/-- C10 helper: starting from a locked state, the only operation that
can leave the session unlocked is an `Unlock` whose passphrase
re-derives to the stored master hash. -/
theorem applyOp_unlock_of_locked (E : Encryption) (st : AppState) (op : SessionOp)
    (h : st.isLocked = true) (h2 : (applyOp E st op).isLocked = false) :
    ∃ p t, op = SessionOp.unlockOp p t ∧ E.deriveKey p st.salt = st.masterHash := by
  cases op with
  | lockOp => simp [applyOp, Lock] at h2
  | unlockOp p t =>
    refine ⟨p, t, rfl, ?_⟩
    by_contra hne
    simp [applyOp, Unlock, ValidateMasterPassword, hne, h] at h2
  | checkOp t =>
    simp [applyOp, CheckAutoLock, h] at h2

/-- C10: over every sequence of `Lock`, `Unlock` and `CheckAutoLock`
calls starting from a locked session, reaching an unlocked state
requires that some `Unlock` in the sequence carried a passphrase which
validates against the stored salt and master hash (which the three
operations never modify). -/
theorem session_unlock_requires_validation (E : Encryption) (st : AppState)
    (ops : List SessionOp) (h0 : st.isLocked = true)
    (h1 : (runOps E st ops).isLocked = false) :
    ∃ p t, SessionOp.unlockOp p t ∈ ops ∧ E.deriveKey p st.salt = st.masterHash := by
  induction ops generalizing st with
  | nil => simp [runOps, h0] at h1
  | cons op ops ih =>
    rw [runOps, List.foldl_cons] at h1
    by_cases hl : (applyOp E st op).isLocked = true
    · obtain ⟨p, t, hmem, heq⟩ := ih (applyOp E st op) hl (by rw [runOps]; exact h1)
      obtain ⟨hm, hs⟩ := applyOp_preserves_material E st op
      exact ⟨p, t, List.mem_cons_of_mem _ hmem, by rwa [hs, hm] at heq⟩
    · rw [Bool.not_eq_true] at hl
      obtain ⟨p, t, hop, heq⟩ := applyOp_unlock_of_locked E st op h0 hl
      exact ⟨p, t, by rw [hop]; exact List.mem_cons_self _ _, heq⟩

/-- C10 witness: a concrete locked session that ends unlocked after a
correct `Unlock`, from which the theorem recovers the validating
passphrase. -/
theorem session_unlock_requires_validation_witness :
    ∃ p t, SessionOp.unlockOp p t ∈ [SessionOp.unlockOp "pw" 5] ∧
      encWitness.deriveKey p lockedState.salt = lockedState.masterHash :=
  session_unlock_requires_validation encWitness lockedState
    [SessionOp.unlockOp "pw" 5] rfl (by decide)

/-- C1 counterexample: the claim fails on the code.  At a concrete
`Encryption` implementation, the configuration persisted by `init` has
`MasterHash` equal to the raw output of `DeriveKey` — the derived
master key itself — and `EncryptPassword` hands exactly that persisted
value to `Encrypt` as the symmetric key (visible here because the
witness cipher embeds its key in its output). -/
theorem init_persists_raw_derived_key :
    (initMasterConfig encWitness "CorrectHorse1!" [5, 6]).masterHash =
      encWitness.deriveKey "CorrectHorse1!" [5, 6] ∧
    EncryptPassword encWitness
      { masterHash := encWitness.deriveKey "CorrectHorse1!" [5, 6], salt := [5, 6],
        autoLockTimeout := 300, isLocked := false, lastActivity := 0 } "hunter2" =
      Except.ok (encWitness.deriveKey "CorrectHorse1!" [5, 6] ++ strToBytes "hunter2") :=
  ⟨rfl, rfl⟩

/-- C1 amended: what the code actually guarantees.  `init` persists the
derived master key verbatim as `MasterHash` alongside the salt, and
while unlocked both `EncryptPassword` and `DecryptMasterPassword` use
that persisted `MasterHash` directly as the symmetric key. -/
theorem init_persists_key_used_for_encryption (E : Encryption) (masterPass : String)
    (salt : List Nat) (st : AppState) (password : String) (data : List Nat)
    (h : st.isLocked = false) :
    (initMasterConfig E masterPass salt).masterHash = E.deriveKey masterPass salt ∧
    (initMasterConfig E masterPass salt).salt = salt ∧
    EncryptPassword E st password =
      Except.mapError AppError.cryptoFail (E.encrypt (strToBytes password) st.masterHash) ∧
    DecryptMasterPassword E st data =
      Except.mapError AppError.cryptoFail (E.decrypt data st.masterHash) := by
  refine ⟨rfl, rfl, ?_, ?_⟩
  · simp only [EncryptPassword, h]
    cases hE : E.encrypt (strToBytes password) st.masterHash <;>
      simp [Except.mapError, hE]
  · simp only [DecryptMasterPassword, h]
    cases hE : E.decrypt data st.masterHash <;>
      simp [Except.mapError, hE]

/-- C1 amended witness: evaluated at a concrete implementation and
unlocked state. -/
theorem init_persists_key_used_for_encryption_witness :
    (initMasterConfig encWitness "pw" []).masterHash = encWitness.deriveKey "pw" [] ∧
    (initMasterConfig encWitness "pw" []).salt = [] ∧
    EncryptPassword encWitness idleState "s" =
      Except.mapError AppError.cryptoFail
        (encWitness.encrypt (strToBytes "s") idleState.masterHash) ∧
    DecryptMasterPassword encWitness idleState [9] =
      Except.mapError AppError.cryptoFail
        (encWitness.decrypt [9] idleState.masterHash) :=
  init_persists_key_used_for_encryption encWitness "pw" [] idleState "s" [9] rfl

/-- C9 counterexample: under the default configuration
(`PasswordLength = 16`), the health report for `"Str0ng!Pass"` — an
11-byte password — has a false length check, so not every check is
true as the claim states. -/
theorem strong_password_fails_default_length :
    (CheckPasswordHealth defaultPasswordLength "Str0ng!Pass").length = false := by
  decide

/-- C9 amended: the full reports under the default configuration:
`"abc"` fails length, uppercase, numbers and special characters
(passing lowercase and not-common), and `"Str0ng!Pass"` passes every
check except length, which is false because its 11 bytes fall below
the default 16-byte minimum. -/
theorem password_health_default_reports :
    CheckPasswordHealth defaultPasswordLength "abc" =
      { length := false, uppercase := false, lowercase := true, numbers := false,
        specialChars := false, notCommon := true } ∧
    CheckPasswordHealth defaultPasswordLength "Str0ng!Pass" =
      { length := false, uppercase := true, lowercase := true, numbers := true,
        specialChars := true, notCommon := true } := by
  constructor <;> decide

end Passio
